import Mathlib

/-!
Verification of the port-to-rail analytics core (`src/api_server.py`).

The definitions below are a shallow embedding of the deterministic analytics
layer of the Flask API server: the surge classifier of `get_current_metrics`,
the freight-distribution arithmetic of `rail_analysis`, the oracle-response
fallback of `rail_analysis`, the merge semantics of `update_ship_tracker`,
the write sequence of `save_ship_tracker`, the 24-hour forecast of
`get_hourly_forecast`, the filtering/grouping of `get_docked_vessels`, and the
slicing of `get_tracker_history`.  Machine floats in the source are modelled
with rationals, Python `int` with `Int` (euclidean division matches Python
`//` and `%` for the positive divisors used here), and JSON dictionaries with
association lists in insertion order, mirroring Python `dict` semantics.
-/

namespace PortRail

/-- The three-level surge risk enum (strings "LOW"/"MEDIUM"/"HIGH" in the source). -/
inductive Risk where
  | LOW
  | MEDIUM
  | HIGH
deriving DecidableEq, Repr

/-- Surge risk classification from `get_current_metrics` (api_server.py lines 57-63):
`if deviation < 30: "LOW" elif deviation < 60: "MEDIUM" else: "HIGH"`. -/
def surgeRisk (deviation : ℚ) : Risk :=
  if deviation < 30 then Risk.LOW
  else if deviation < 60 then Risk.MEDIUM
  else Risk.HIGH

/-- The freight figures computed by `rail_analysis` (api_server.py lines 296-314):
ships per window via Python `//` and `%` (euclidean for the positive divisor 3),
total mass `ship_count * 2500 * 14000`, hourly rate mass / forecast_window. -/
structure FreightDistribution where
  ships_0_24 : Int
  ships_24_48 : Int
  ships_48_72 : Int
  total_freight_kg : Int
  hourly_rate : ℚ
deriving DecidableEq, Repr

/-- Embedding of the freight computation of `rail_analysis`:
`ships_per_window = ship_count // 3`, `ships_0_24 = ships_per_window + (ship_count % 3)`,
the other two windows get `ships_per_window`, mass and rate as in lines 313-314. -/
def freightDistribution (ship_count forecast_window : Int) : FreightDistribution :=
  let ships_per_window := ship_count / 3
  { ships_0_24 := ships_per_window + ship_count % 3
    ships_24_48 := ships_per_window
    ships_48_72 := ships_per_window
    total_freight_kg := ship_count * 2500 * 14000
    hourly_rate := (ship_count * 2500 * 14000 : ℚ) / (forecast_window : ℚ) }

/-- The `rail_analysis` route has no guard on `forecast_window`: Python raises
`ZeroDivisionError` at the division on line 314 when the window is 0 (caught by
the route's generic `except Exception` handler), and silently computes for any
non-zero window, negative included. -/
def railAnalysisFreight (ship_count forecast_window : Int) :
    Except String FreightDistribution :=
  if forecast_window = 0 then Except.error "ZeroDivisionError: division by zero"
  else Except.ok (freightDistribution ship_count forecast_window)

/-- The `analysis_data` value built by `rail_analysis` (api_server.py lines
374-378): either the successfully parsed JSON value, or the degraded dict
`raw_response = llm_response, parse_error = True`. -/
inductive AnalysisData (α : Type) where
  | parsed (value : α)
  | degraded (raw_response : String) (parse_error : Bool)
deriving DecidableEq, Repr

/-- Embedding of the `try: json.loads(...) except JSONDecodeError:` block of
`rail_analysis`.  The JSON decoder `json_loads` is the external library call,
abstracted as a function returning `none` exactly when it would raise
`JSONDecodeError`; the orchestrator itself is total. -/
def parseAnalysisData {α : Type} (json_loads : String → Option α)
    (llm_response : String) : AnalysisData α :=
  match json_loads llm_response with
  | some v => AnalysisData.parsed v
  | none => AnalysisData.degraded llm_response true

/-- Risk assigned to forecast point `i` at hour-of-day `hour` by
`get_hourly_forecast` (api_server.py lines 88-100), band by band in source
order. -/
def forecastRisk (i hour : Nat) : Risk :=
  if 6 ≤ hour ∧ hour ≤ 10 then Risk.MEDIUM
  else if 14 ≤ hour ∧ hour ≤ 18 then (if i < 6 then Risk.HIGH else Risk.MEDIUM)
  else if 22 ≤ hour ∨ hour ≤ 5 then Risk.LOW
  else Risk.LOW

/-- Throughput multiplier used by `get_hourly_forecast` for a given hour-of-day
(the band centres, no jitter in the forecast path). -/
def forecastMultiplier (hour : Nat) : ℚ :=
  if 6 ≤ hour ∧ hour ≤ 10 then 14 / 10
  else if 14 ≤ hour ∧ hour ≤ 18 then 15 / 10
  else if 22 ≤ hour ∨ hour ≤ 5 then 6 / 10
  else 1

/-- One entry of the forecast list built by `get_hourly_forecast`
(api_server.py lines 102-108); `display_time` is omitted (pure string
formatting of `hour`). -/
structure ForecastPoint where
  hour : Nat
  expected_teu : Int
  deviation_from_baseline : ℚ
  surge_risk : Risk
deriving DecidableEq, Repr

instance : Inhabited ForecastPoint :=
  ⟨{ hour := 0, expected_teu := 0, deviation_from_baseline := 0, surge_risk := Risk.LOW }⟩

/-- Forecast point `i` of `get_hourly_forecast` when the current hour is
`nowHour`: the hour-of-day of `now + i hours` is `(nowHour + i) % 24`;
`int(base_teu * multiplier)` truncates (all values here are non-negative, so
floor). -/
def forecastPoint (nowHour i : Nat) : ForecastPoint :=
  let hour := (nowHour + i) % 24
  { hour := hour
    expected_teu := Rat.floor (150 * forecastMultiplier hour)
    deviation_from_baseline := (forecastMultiplier hour - 1) * 100
    surge_risk := forecastRisk i hour }

/-- Embedding of `get_hourly_forecast` (api_server.py lines 78-110): the
24-point forecast list for a current hour `nowHour`. -/
def getHourlyForecast (nowHour : Nat) : List ForecastPoint :=
  (List.range 24).map (forecastPoint nowHour)

/-- A tracked vessel record from the `vessels` mapping of
`data/ship_tracker.json`.  The source treats vessels as opaque JSON dicts and
reads only `status` and `terminal` (via `.get`, so both may be absent); the
rest of the payload is carried opaquely in `extra`. -/
structure Vessel where
  status : Option String
  terminal : Option String
  extra : String
deriving DecidableEq, Repr

/-- History entries are opaque JSON records in the source, only appended,
sliced and counted; modelled by an identifier. -/
abbrev HistoryEntry := Nat

/-- The `stats` blob is opaque to the store (never recomputed by it);
modelled as its serialized text, with "" standing for the empty object. -/
abbrev Stats := String

/-- The persisted tracker state (`vessels`, `history`, `stats`); JSON
dictionaries are modelled as association lists in insertion order, matching
Python dict semantics. -/
structure TrackerState where
  vessels : List (String × Vessel)
  history : List HistoryEntry
  stats : Stats
deriving DecidableEq, Repr

/-- An incoming POST body for `update_ship_tracker`.  Absent `vessels` and
`history` keys default to empty (the source reads them with
`.get('vessels', ...)` and `.get('history', [])`); an absent `stats` key is
`none` (the source then keeps the stored stats). -/
structure TrackerUpdate where
  merge : Bool
  vessels : List (String × Vessel)
  history : List HistoryEntry
  stats : Option Stats
deriving DecidableEq, Repr

/-- Python dict lookup on an association list (first binding wins; the dicts
built below keep keys unique). -/
def dictGet {β : Type} (k : String) : List (String × β) → Option β
  | [] => none
  | p :: rest => if p.1 = k then some p.2 else dictGet k rest

/-- Key-by-key override semantics: the incoming binding wins when present,
otherwise the stored binding survives. -/
def overrideGet {β : Type} (incoming stored : Option β) : Option β :=
  match incoming with
  | some v => some v
  | none => stored

/-- The bucket a terminal key ends up with after grouping, given the bucket
stored so far and the vessels filtered for that key. -/
def groupedBucket (stored : Option (List Vessel)) (g : List Vessel) :
    Option (List Vessel) :=
  match stored with
  | some old => some (old ++ g)
  | none => if g = [] then none else some g

/-- Python dict assignment `d[k] = v`: replace the value in place when the key
exists, append a new binding otherwise. -/
def dictInsert {β : Type} (d : List (String × β)) (k : String) (v : β) :
    List (String × β) :=
  if (d.map Prod.fst).contains k then
    d.map (fun p => if p.1 = k then (p.1, v) else p)
  else d ++ [(k, v)]

/-- Python `l[-n:]` for positive `n`: the last `n` entries (the whole list when
it is shorter than `n`). -/
def pySliceLast {β : Type} (l : List β) (n : Nat) : List β :=
  l.drop (l.length - n)

/-- The merge branch of `update_ship_tracker` (api_server.py lines 445-456):
incoming vessels written key-by-key into the stored dict, history extended then
cut to the last 1000 entries, stats replaced by the posted stats when present. -/
def mergeTracker (existing : TrackerState) (upd : TrackerUpdate) : TrackerState :=
  { vessels := upd.vessels.foldl (fun acc p => dictInsert acc p.1 p.2) existing.vessels
    history := pySliceLast (existing.history ++ upd.history) 1000
    stats := upd.stats.getD existing.stats }

/-- The state transformation of `update_ship_tracker`: merge into the loaded
state when the posted body has a truthy `merge` key, replace wholesale
otherwise. -/
def updateShipTracker (existing : TrackerState) (upd : TrackerUpdate) : TrackerState :=
  if upd.merge then mergeTracker existing upd
  else { vessels := upd.vessels, history := upd.history, stats := upd.stats.getD "" }

/-- The observable on-disk content of the tracker file; `none` when absent. -/
abbrev DiskFile := Option String

/-- The steps `save_ship_tracker` performs (api_server.py lines 419-428):
`os.makedirs` (no change to the file), `open(..., 'w')` (truncates the file in
place), the `json.dump` write, close.  There is no write-to-temp-then-rename. -/
inductive SaveStep where
  | mkdirs
  | openTrunc
  | writeChunk (s : String)
  | close
deriving DecidableEq, Repr

/-- Effect of one save step on the on-disk file. -/
def applySaveStep (disk : DiskFile) : SaveStep → DiskFile
  | SaveStep.mkdirs => disk
  | SaveStep.openTrunc => some ""
  | SaveStep.writeChunk s => some (disk.getD "" ++ s)
  | SaveStep.close => disk

/-- On-disk content after running a sequence of save steps; an interrupted save
is a proper prefix of the full step list. -/
def runSaveSteps (disk : DiskFile) (steps : List SaveStep) : DiskFile :=
  steps.foldl applySaveStep disk

/-- The full step sequence of `save_ship_tracker` for a serialized payload. -/
def saveShipTrackerSteps (payload : String) : List SaveStep :=
  [SaveStep.mkdirs, SaveStep.openTrunc, SaveStep.writeChunk payload, SaveStep.close]

/-- The response branch of `update_ship_tracker` on the save result
(api_server.py lines 458-461): a failed save is reported to the caller. -/
def updateSaveResponse (saveOk : Bool) : Except String Bool :=
  if saveOk then Except.ok true else Except.error "Failed to save data"

/-- The filter of `get_docked_vessels` (api_server.py line 486):
`v.get('status') in ['docked', 'unloading']`. -/
def dockedFilter (vessels : List Vessel) : List Vessel :=
  vessels.filter (fun v => v.status == some "docked" || v.status == some "unloading")

/-- The grouping key of `_group_by_terminal`: `v.get('terminal', 'Unknown')`. -/
def terminalKey (v : Vessel) : String :=
  v.terminal.getD "Unknown"

/-- One step of `_group_by_terminal` (api_server.py lines 494-502): create the
bucket on first sight of a terminal, then append the vessel to its bucket. -/
def groupStep (acc : List (String × List Vessel)) (v : Vessel) :
    List (String × List Vessel) :=
  if (acc.map Prod.fst).contains (terminalKey v) then
    acc.map (fun p => if p.1 = terminalKey v then (p.1, p.2 ++ [v]) else p)
  else acc ++ [(terminalKey v, [v])]

/-- Embedding of `_group_by_terminal`. -/
def groupByTerminal (vessels : List Vessel) : List (String × List Vessel) :=
  vessels.foldl groupStep []

/-- Embedding of `get_docked_vessels`: the filtered vessel list and its
grouping by terminal. -/
def getDockedVessels (vessels : List Vessel) : List Vessel × List (String × List Vessel) :=
  (dockedFilter vessels, groupByTerminal (dockedFilter vessels))

/-- Python `l[-limit:]` as used by `get_tracker_history` (api_server.py line
510): for `limit = 0` the slice is `l[0:]`, the whole list; for positive
`limit` the last `limit` entries. -/
def pySliceNegLimit {β : Type} (l : List β) (limit : Nat) : List β :=
  if limit = 0 then l else l.drop (l.length - limit)

/-- Embedding of `get_tracker_history` (api_server.py lines 504-513): slice the
stored history with `[-limit:]`, then reverse so the most recent entry is
first. -/
def getTrackerHistory {β : Type} (history : List β) (limit : Nat) : List β :=
  (pySliceNegLimit history limit).reverse

/-- Stored state of the spec example for the merge claim: one vessel under key
"A" and history entries 1..999. -/
def exampleStored : TrackerState :=
  { vessels := [("A", { status := some "docked", terminal := some "Barbours Cut",
                        extra := "vessel A" })]
    history := List.range' 1 999
    stats := "old stats" }

/-- Incoming merge update of the spec example: one vessel under key "B" and
history entries 1000, 1001. -/
def exampleUpdate : TrackerUpdate :=
  { merge := true
    vessels := [("B", { status := some "in-transit", terminal := none,
                        extra := "vessel B" })]
    history := [1000, 1001]
    stats := some "new stats" }

/-- Demo vessel set for the docked-vessels claim: statuses docked, unloading
and in-transit, with the unloading vessel lacking a terminal. -/
def demoDocked : Vessel :=
  { status := some "docked", terminal := some "Bayport", extra := "d" }

def demoUnloading : Vessel :=
  { status := some "unloading", terminal := none, extra := "u" }

def demoTransit : Vessel :=
  { status := some "in-transit", terminal := some "Bayport", extra := "t" }

def demoVessels : List Vessel :=
  [demoDocked, demoUnloading, demoTransit]

end PortRail

namespace PortRail

/-- C1: for every real deviation_pct the snapshot surge classifier returns LOW
below 30, MEDIUM in [30, 60), HIGH at or above 60; in particular every negative
deviation classifies as LOW. -/
theorem surgeRisk_thresholds (d : ℚ) :
    (d < 30 → surgeRisk d = Risk.LOW) ∧
    (30 ≤ d → d < 60 → surgeRisk d = Risk.MEDIUM) ∧
    (60 ≤ d → surgeRisk d = Risk.HIGH) ∧
    (d < 0 → surgeRisk d = Risk.LOW) := by
  refine ⟨fun h => ?_, fun h30 h60 => ?_, fun h => ?_, fun h => ?_⟩
  · simp [surgeRisk, h]
  · have : ¬ d < 30 := by linarith
    simp [surgeRisk, this, h60]
  · have h1 : ¬ d < 30 := by linarith
    have h2 : ¬ d < 60 := by linarith
    simp [surgeRisk, h1, h2]
  · have : d < 30 := by linarith
    simp [surgeRisk, this]

/-- Witness for C1 at deviations -5, 45 and 60. -/
theorem surgeRisk_thresholds_witness :
    surgeRisk (-5) = Risk.LOW ∧ surgeRisk 45 = Risk.MEDIUM ∧
    surgeRisk 60 = Risk.HIGH ∧ surgeRisk (-1) = Risk.LOW :=
  ⟨(surgeRisk_thresholds (-5)).1 (by norm_num),
   (surgeRisk_thresholds 45).2.1 (by norm_num) (by norm_num),
   (surgeRisk_thresholds 60).2.2.1 (by norm_num),
   (surgeRisk_thresholds (-1)).2.2.2 (by norm_num)⟩

/-- C2 (amended): for every non-negative ship_count the three windows partition
the ships exactly (div-3 buckets with the remainder on the first window), the
total mass is ship_count * 2500 * 14000 kg and, for a positive window, the
hourly rate is that mass over the window.  For ship_count = 15 the buckets are
5/5/5 (the division is exact), not 7/4/4. -/
theorem freightDistribution_conservation (n w : Int) (_hn : 0 ≤ n) :
    (freightDistribution n w).ships_0_24 + (freightDistribution n w).ships_24_48 +
      (freightDistribution n w).ships_48_72 = n ∧
    (freightDistribution n w).ships_0_24 = n / 3 + n % 3 ∧
    (freightDistribution n w).ships_24_48 = n / 3 ∧
    (freightDistribution n w).ships_48_72 = n / 3 ∧
    (freightDistribution n w).total_freight_kg = n * 2500 * 14000 ∧
    (0 < w → (freightDistribution n w).hourly_rate =
      (n * 2500 * 14000 : ℚ) / (w : ℚ)) := by
  refine ⟨?_, rfl, rfl, rfl, rfl, fun _ => rfl⟩
  show n / 3 + n % 3 + n / 3 + n / 3 = n
  omega

/-- Witness for C2 at ship_count = 15, forecast_window = 72: buckets 5/5/5,
mass 525,000,000 kg, hourly rate 525,000,000 / 72 kg/hour. -/
theorem freightDistribution_conservation_witness :
    ((freightDistribution 15 72).ships_0_24 + (freightDistribution 15 72).ships_24_48 +
      (freightDistribution 15 72).ships_48_72 = 15 ∧
     (freightDistribution 15 72).hourly_rate = (15 * 2500 * 14000 : ℚ) / (72 : ℚ)) ∧
    (freightDistribution 15 72).ships_0_24 = 5 ∧
    (freightDistribution 15 72).ships_24_48 = 5 ∧
    (freightDistribution 15 72).ships_48_72 = 5 ∧
    (freightDistribution 15 72).total_freight_kg = 525000000 := by
  have h := freightDistribution_conservation 15 72 (by norm_num)
  exact ⟨⟨h.1, h.2.2.2.2.2 (by norm_num)⟩, by decide, by decide, by decide, by decide⟩

/-- C2 counterexample: for ship_count = 15 the code's buckets are 5/5/5
(15 is divisible by 3), refuting the claimed example buckets 7/4/4. -/
theorem freightDistribution_15_buckets :
    (freightDistribution 15 72).ships_0_24 = 5 ∧
    (freightDistribution 15 72).ships_24_48 = 5 ∧
    (freightDistribution 15 72).ships_48_72 = 5 ∧
    ¬ ((freightDistribution 15 72).ships_0_24 = 7 ∧
       (freightDistribution 15 72).ships_24_48 = 4 ∧
       (freightDistribution 15 72).ships_48_72 = 4) := by
  refine ⟨by decide, by decide, by decide, by decide⟩

/-- C3 evaluation: the code has no InvalidInput guard on forecast_window.  At
window -5 it silently returns a (negative) hourly rate, and at window 0 Python
raises ZeroDivisionError (surfaced by the generic exception handler), not an
InvalidInput rejection. -/
theorem railAnalysisFreight_no_guard :
    railAnalysisFreight 15 (-5) = Except.ok (freightDistribution 15 (-5)) ∧
    (freightDistribution 15 (-5)).hourly_rate = -105000000 ∧
    railAnalysisFreight 15 0 = Except.error "ZeroDivisionError: division by zero" := by
  refine ⟨?_, ?_, ?_⟩
  · simp [railAnalysisFreight]
  · show (15 * 2500 * 14000 : ℚ) / ((-5 : Int) : ℚ) = -105000000
    norm_num
  · simp [railAnalysisFreight]

/-- C4: whenever the JSON decoder fails on the oracle response, the
orchestrator returns the degraded value with `parse_error = true` and
`raw_response` exactly the original oracle text, without raising. -/
theorem parseAnalysisData_degraded {α : Type} (json_loads : String → Option α)
    (llm_response : String) (h : json_loads llm_response = none) :
    parseAnalysisData json_loads llm_response =
      AnalysisData.degraded llm_response true := by
  simp [parseAnalysisData, h]

/-- Witness for C4: a decoder rejecting everything, on a concrete non-JSON text. -/
theorem parseAnalysisData_degraded_witness :
    parseAnalysisData (fun _ => (none : Option Nat)) "this is not valid json" =
      AnalysisData.degraded "this is not valid json" true :=
  parseAnalysisData_degraded (fun _ => (none : Option Nat)) "this is not valid json" rfl

/-- The entry of `getHourlyForecast` at index `j < 24` is `forecastPoint nowHour j`. -/
theorem getHourlyForecast_getD (nowHour j : Nat) (hj : j < 24) :
    (getHourlyForecast nowHour).getD j default = forecastPoint nowHour j := by
  simp [getHourlyForecast, List.getD_eq_getElem?_getD, List.getElem?_range hj]

/-- C7: the forecast always has exactly 24 points, point 0 carries the current
hour, every point `j` carries hour-of-day `(nowHour + j) % 24`, and consecutive
points have strictly increasing hour-of-day modulo 24. -/
theorem getHourlyForecast_shape (nowHour : Nat) (h : nowHour < 24) :
    (getHourlyForecast nowHour).length = 24 ∧
    ((getHourlyForecast nowHour).getD 0 default).hour = nowHour ∧
    (∀ j, j < 24 →
      ((getHourlyForecast nowHour).getD j default).hour = (nowHour + j) % 24) ∧
    (∀ j, j + 1 < 24 →
      ((getHourlyForecast nowHour).getD (j + 1) default).hour =
        (((getHourlyForecast nowHour).getD j default).hour + 1) % 24) := by
  have hidx : ∀ j, j < 24 →
      ((getHourlyForecast nowHour).getD j default).hour = (nowHour + j) % 24 := by
    intro j hj
    rw [getHourlyForecast_getD nowHour j hj]
    simp [forecastPoint]
  refine ⟨by simp [getHourlyForecast], ?_, hidx, ?_⟩
  · rw [hidx 0 (by norm_num)]
    omega
  · intro j hj
    rw [hidx (j + 1) hj, hidx j (by omega)]
    omega

/-- Witness for C7 at current hour 23: 24 points, first hour 23, and the wrap
from hour 23 to hour 0 between points 0 and 1. -/
theorem getHourlyForecast_shape_witness :
    (getHourlyForecast 23).length = 24 ∧
    ((getHourlyForecast 23).getD 0 default).hour = 23 ∧
    ((getHourlyForecast 23).getD 1 default).hour =
      (((getHourlyForecast 23).getD 0 default).hour + 1) % 24 := by
  have h := getHourlyForecast_shape 23 (by norm_num)
  exact ⟨h.1, h.2.1, h.2.2.2 0 (by norm_num)⟩

/-- C8: the forecast risk is per-band: HIGH for hours 14-18 when the loop index
is below 6 and MEDIUM otherwise, MEDIUM for hours 6-10, LOW for night hours and
LOW for all remaining hours; and it is this rule, not the SurgeClassifier
thresholds, that fills `surge_risk` (at i = 0, hour 14 they disagree). -/
theorem forecastRisk_bands (i hour : Nat) :
    (14 ≤ hour ∧ hour ≤ 18 →
      forecastRisk i hour = (if i < 6 then Risk.HIGH else Risk.MEDIUM)) ∧
    (6 ≤ hour ∧ hour ≤ 10 → forecastRisk i hour = Risk.MEDIUM) ∧
    ((22 ≤ hour ∨ hour ≤ 5) → forecastRisk i hour = Risk.LOW) ∧
    (¬ (6 ≤ hour ∧ hour ≤ 10) → ¬ (14 ≤ hour ∧ hour ≤ 18) →
      ¬ (22 ≤ hour ∨ hour ≤ 5) → forecastRisk i hour = Risk.LOW) ∧
    ((forecastPoint 14 0).surge_risk = Risk.HIGH ∧
     surgeRisk (forecastPoint 14 0).deviation_from_baseline = Risk.MEDIUM) := by
  refine ⟨fun hb => ?_, fun hb => ?_, fun hb => ?_, fun h1 h2 h3 => ?_, ?_, ?_⟩
  · have hm : ¬ (6 ≤ hour ∧ hour ≤ 10) := by omega
    simp [forecastRisk, hm, hb]
  · simp [forecastRisk, hb]
  · have hm : ¬ (6 ≤ hour ∧ hour ≤ 10) := by omega
    have ha : ¬ (14 ≤ hour ∧ hour ≤ 18) := by omega
    simp [forecastRisk, hm, ha, hb]
  · simp [forecastRisk, h1, h2, h3]
  · decide
  · show surgeRisk ((forecastMultiplier ((14 + 0) % 24) - 1) * 100) = Risk.MEDIUM
    norm_num [forecastMultiplier, surgeRisk]

/-- Witness for C8 on one hour of each band: hour 15 at index 0 (afternoon,
near-term), hour 7 (morning), hour 23 (night), hour 12 (normal). -/
theorem forecastRisk_bands_witness :
    forecastRisk 0 15 = (if 0 < 6 then Risk.HIGH else Risk.MEDIUM) ∧
    forecastRisk 7 7 = Risk.MEDIUM ∧
    forecastRisk 0 23 = Risk.LOW ∧
    forecastRisk 0 12 = Risk.LOW :=
  ⟨(forecastRisk_bands 0 15).1 (by omega),
   (forecastRisk_bands 7 7).2.1 (by omega),
   (forecastRisk_bands 0 23).2.2.1 (by omega),
   (forecastRisk_bands 0 12).2.2.2.1 (by omega) (by omega) (by omega)⟩

/-- Looking a key up after an in-place bucket update touches exactly that key. -/
theorem dictGet_map_update {β : Type} (d : List (String × β)) (k : String)
    (f : β → β) (k' : String) :
    dictGet k' (d.map (fun p => if p.1 = k then (p.1, f p.2) else p)) =
      if k = k' then (dictGet k' d).map f else dictGet k' d := by
  induction d with
  | nil => simp [dictGet]
  | cons p rest ih =>
    simp only [List.map_cons]
    by_cases h1 : p.1 = k <;> by_cases h2 : p.1 = k'
    · have h3 : k = k' := h1 ▸ h2
      simp [dictGet, h1, h2, h3]
    · have h3 : ¬ k = k' := fun hkk => h2 (h1.trans hkk)
      simp [dictGet, h1, h2, h3, ih]
    · have h3 : ¬ k = k' := fun hkk => h1 (h2.trans hkk.symm)
      simp [dictGet, h1, h2, h3, Ne.symm h3, ih]
    · simp [dictGet, h1, h2, ih]

/-- Specialization of `dictGet_map_update` to a constant new value (the shape of `dictInsert`). -/
theorem dictGet_map_replaceVal {β : Type} (d : List (String × β)) (k : String)
    (v : β) (k' : String) :
    dictGet k' (d.map (fun p => if p.1 = k then (p.1, v) else p)) =
      if k = k' then (dictGet k' d).map (fun _ => v) else dictGet k' d :=
  dictGet_map_update d k (fun _ => v) k'

/-- Specialization of `dictGet_map_update` to a bucket append (the shape of `groupStep`). -/
theorem dictGet_map_appendVal {β : Type} (d : List (String × List β)) (k : String)
    (v : β) (k' : String) :
    dictGet k' (d.map (fun p => if p.1 = k then (p.1, p.2 ++ [v]) else p)) =
      if k = k' then (dictGet k' d).map (fun g => g ++ [v]) else dictGet k' d :=
  dictGet_map_update d k (fun g => g ++ [v]) k'

/-- Append falls through to the second dict when the first misses the key. -/
theorem dictGet_append_of_none {β : Type} {l₁ : List (String × β)} {k : String}
    (l₂ : List (String × β)) (h : dictGet k l₁ = none) :
    dictGet k (l₁ ++ l₂) = dictGet k l₂ := by
  induction l₁ with
  | nil => simp
  | cons p rest ih =>
    by_cases h2 : p.1 = k
    · simp [dictGet, h2] at h
    · simp only [List.cons_append]
      simp [dictGet, h2] at h ⊢
      exact ih h

/-- Append keeps a hit of the first dict. -/
theorem dictGet_append_of_some {β : Type} {l₁ : List (String × β)} {k : String}
    {v : β} (l₂ : List (String × β)) (h : dictGet k l₁ = some v) :
    dictGet k (l₁ ++ l₂) = some v := by
  induction l₁ with
  | nil => simp [dictGet] at h
  | cons p rest ih =>
    by_cases h2 : p.1 = k
    · simp [dictGet, h2] at h ⊢
      exact h
    · simp [dictGet, h2] at h ⊢
      exact ih h

/-- A dict lookup succeeds exactly for the stored keys. -/
theorem dictGet_isSome_iff_mem {β : Type} (d : List (String × β)) (k : String) :
    (∃ v, dictGet k d = some v) ↔ k ∈ d.map Prod.fst := by
  induction d with
  | nil => simp [dictGet]
  | cons p rest ih =>
    by_cases h2 : p.1 = k
    · simp [dictGet, h2]
    · simp [dictGet, h2, ih, Ne.symm h2]

/-- The key-membership test of Python's `in` agrees with dict lookup. -/
theorem dictContains_iff {β : Type} (d : List (String × β)) (k : String) :
    (d.map Prod.fst).contains k = true ↔ ∃ v, dictGet k d = some v := by
  rw [dictGet_isSome_iff_mem]
  simp

/-- Lookup after Python dict assignment `d[k] = v`. -/
theorem dictGet_dictInsert {β : Type} (d : List (String × β)) (k : String) (v : β)
    (k' : String) :
    dictGet k' (dictInsert d k v) = if k = k' then some v else dictGet k' d := by
  by_cases hc : ((d.map Prod.fst).contains k) = true
  · rw [dictInsert, if_pos hc, dictGet_map_replaceVal]
    by_cases hk : k = k'
    · subst hk
      obtain ⟨w, hw⟩ := (dictContains_iff d k).mp hc
      simp [hw]
    · simp [hk]
  · rw [dictInsert, if_neg hc]
    have hn : dictGet k d = none := by
      cases h : dictGet k d with
      | none => rfl
      | some w => exact absurd ((dictContains_iff d k).mpr ⟨w, h⟩) hc
    by_cases hk : k = k'
    · subst hk
      rw [dictGet_append_of_none _ hn]
      simp [dictGet]
    · cases h : dictGet k' d with
      | none =>
        rw [dictGet_append_of_none _ h, if_neg hk]
        simp [dictGet, hk, h]
      | some w => rw [dictGet_append_of_some _ h, if_neg hk]

/-- Writing a dict with unique keys into another, binding by binding, yields
the override of the target by the source. -/
theorem dictGet_foldl_insert {β : Type} (vs : List (String × β))
    (acc : List (String × β)) (k : String)
    (hnd : (vs.map Prod.fst).Nodup) :
    dictGet k (vs.foldl (fun a p => dictInsert a p.1 p.2) acc) =
      overrideGet (dictGet k vs) (dictGet k acc) := by
  induction vs generalizing acc with
  | nil => simp [dictGet, overrideGet]
  | cons p rest ih =>
    simp only [List.foldl_cons]
    have hnd2 : (rest.map Prod.fst).Nodup := by
      simp only [List.map_cons, List.nodup_cons] at hnd
      exact hnd.2
    have hpk : p.1 ∉ rest.map Prod.fst := by
      simp only [List.map_cons, List.nodup_cons] at hnd
      exact hnd.1
    rw [ih (dictInsert acc p.1 p.2) hnd2]
    by_cases hk : p.1 = k
    · subst hk
      have hrest : dictGet p.1 rest = none := by
        cases h : dictGet p.1 rest with
        | none => rfl
        | some w =>
          exact absurd ((dictGet_isSome_iff_mem rest p.1).mp ⟨w, h⟩) hpk
      simp [hrest, dictGet, overrideGet, dictGet_dictInsert]
    · simp only [dictGet, if_neg hk]
      cases h : dictGet k rest with
      | none => simp [h, overrideGet, dictGet_dictInsert, hk]
      | some w => simp [h, overrideGet]

/-- Python's `l[-n:]` keeps exactly the `n` most recent entries. -/
theorem pySliceLast_eq_take_reverse {β : Type} (l : List β) (n : Nat) :
    pySliceLast l n = (l.reverse.take n).reverse := by
  show l.drop (l.length - n) = _
  have h1 : l.drop (l.length - n) = l.rtake n := rfl
  rw [h1, List.rtake_eq_reverse_take_reverse]

/-- C5: a merge update overrides the stored vessel dict key-by-key with the
incoming vessels, concatenates the histories keeping only the most recent 1000
entries, and replaces stats with the caller-supplied stats. -/
theorem updateShipTracker_merge (existing : TrackerState) (upd : TrackerUpdate)
    (hm : upd.merge = true) (hnd : (upd.vessels.map Prod.fst).Nodup) :
    (∀ k, dictGet k (updateShipTracker existing upd).vessels =
      overrideGet (dictGet k upd.vessels) (dictGet k existing.vessels)) ∧
    (updateShipTracker existing upd).history =
      ((existing.history ++ upd.history).reverse.take 1000).reverse ∧
    (∀ s, upd.stats = some s → (updateShipTracker existing upd).stats = s) := by
  have hu : updateShipTracker existing upd = mergeTracker existing upd := by
    simp [updateShipTracker, hm]
  refine ⟨fun k => ?_, ?_, fun s hs => ?_⟩
  · rw [hu]
    show dictGet k (upd.vessels.foldl (fun a p => dictInsert a p.1 p.2)
      existing.vessels) = _
    exact dictGet_foldl_insert upd.vessels existing.vessels k hnd
  · rw [hu]
    simp only [mergeTracker]
    exact pySliceLast_eq_take_reverse (existing.history ++ upd.history) 1000
  · rw [hu]
    simp [mergeTracker, hs]

/-- Witness for C5 on the spec example: stored vessel "A" with history 1..999,
merged with vessel "B" and history entries 1000 and 1001. -/
theorem updateShipTracker_merge_witness :
    ((∀ k, dictGet k (updateShipTracker exampleStored exampleUpdate).vessels =
      overrideGet (dictGet k exampleUpdate.vessels)
        (dictGet k exampleStored.vessels)) ∧
     (updateShipTracker exampleStored exampleUpdate).history =
      ((exampleStored.history ++ exampleUpdate.history).reverse.take 1000).reverse ∧
     (∀ s, exampleUpdate.stats = some s →
       (updateShipTracker exampleStored exampleUpdate).stats = s)) :=
  updateShipTracker_merge exampleStored exampleUpdate rfl (by decide)

/-- C6 counterexample: interrupting the save right after `open(..., 'w')` (a
failure during `json.dump`) leaves the file truncated to the empty string: the
on-disk state is neither the prior state nor the new payload, so a reader can
observe a partially written file and the prior state is destroyed. -/
theorem saveShipTracker_not_atomic :
    runSaveSteps (some "prior tracker state")
        (List.take 2 (saveShipTrackerSteps "new tracker state")) = some "" ∧
    (some "" : DiskFile) ≠ some "prior tracker state" ∧
    (some "" : DiskFile) ≠ some "new tracker state" := by
  refine ⟨rfl, by decide, by decide⟩

/-- C6 (amended): a save that fails before the file is opened (for example in
`os.makedirs`) leaves the prior on-disk state untouched, an uninterrupted save
writes exactly the payload, and a failed save is reported to the caller as a
failed update; but the write is in place, not atomic (see the counterexample). -/
theorem saveShipTracker_failure_semantics (prior : DiskFile) (payload : String) :
    runSaveSteps prior [] = prior ∧
    runSaveSteps prior (List.take 1 (saveShipTrackerSteps payload)) = prior ∧
    runSaveSteps prior (saveShipTrackerSteps payload) = some payload ∧
    updateSaveResponse false = Except.error "Failed to save data" := by
  refine ⟨rfl, rfl, ?_, rfl⟩
  show some ((Option.getD (some "") "") ++ payload) = some payload
  simp

/-- Lookup after one grouping step of `_group_by_terminal`. -/
theorem dictGet_groupStep (acc : List (String × List Vessel)) (v : Vessel)
    (t : String) :
    dictGet t (groupStep acc v) =
      if terminalKey v = t then some ((dictGet t acc).getD [] ++ [v])
      else dictGet t acc := by
  by_cases hc : ((acc.map Prod.fst).contains (terminalKey v)) = true
  · rw [groupStep, if_pos hc, dictGet_map_appendVal]
    by_cases ht : terminalKey v = t
    · obtain ⟨g, hg⟩ := (dictContains_iff acc (terminalKey v)).mp hc
      rw [if_pos ht, if_pos ht, ← ht, hg]
      rfl
    · rw [if_neg ht, if_neg ht]
  · rw [groupStep, if_neg hc]
    have hn : dictGet (terminalKey v) acc = none := by
      cases h : dictGet (terminalKey v) acc with
      | none => rfl
      | some w => exact absurd ((dictContains_iff acc (terminalKey v)).mpr ⟨w, h⟩) hc
    by_cases ht : terminalKey v = t
    · rw [if_pos ht, ← ht, hn, dictGet_append_of_none _ hn]
      simp [dictGet]
    · rw [if_neg ht]
      cases h : dictGet t acc with
      | none =>
        rw [dictGet_append_of_none _ h]
        simp [dictGet, ht, h]
      | some w => rw [dictGet_append_of_some _ h]

/-- Folding `_group_by_terminal` over a vessel list: each key's bucket is the
sub-list of vessels with that terminal key, in traversal order. -/
theorem dictGet_group_fold (vs : List Vessel) (acc : List (String × List Vessel))
    (t : String) :
    dictGet t (vs.foldl groupStep acc) =
      groupedBucket (dictGet t acc) (vs.filter (fun v => terminalKey v == t)) := by
  induction vs generalizing acc with
  | nil =>
    cases h : dictGet t acc with
    | none => simp [h, groupedBucket]
    | some g => simp [h, groupedBucket]
  | cons v rest ih =>
    simp only [List.foldl_cons]
    rw [ih (groupStep acc v), dictGet_groupStep]
    by_cases ht : terminalKey v = t
    · rw [if_pos ht]
      have hf : (v :: rest).filter (fun w => terminalKey w == t) =
          v :: rest.filter (fun w => terminalKey w == t) := by
        simp [List.filter_cons, ht]
      cases h : dictGet t acc with
      | none => simp [h, hf, groupedBucket]
      | some g => simp [h, hf, groupedBucket]
    · rw [if_neg ht]
      have hf : (v :: rest).filter (fun w => terminalKey w == t) =
          rest.filter (fun w => terminalKey w == t) := by
        simp [List.filter_cons, ht]
      rw [hf]

/-- C9: `get_docked_vessels` returns exactly the vessels whose status is
docked or unloading, grouped by terminal, and every returned vessel lacking a
terminal lands in the sentinel "Unknown" bucket. -/
theorem getDockedVessels_spec (vessels : List Vessel) :
    (∀ v, v ∈ (getDockedVessels vessels).1 ↔
      v ∈ vessels ∧ (v.status = some "docked" ∨ v.status = some "unloading")) ∧
    (∀ t, dictGet t (getDockedVessels vessels).2 =
      (if (dockedFilter vessels).filter (fun v => terminalKey v == t) = [] then none
       else some ((dockedFilter vessels).filter (fun v => terminalKey v == t)))) ∧
    (∀ v, v ∈ dockedFilter vessels → v.terminal = none →
      ∃ g, dictGet "Unknown" (getDockedVessels vessels).2 = some g ∧ v ∈ g) := by
  have hgroup : ∀ t, dictGet t (getDockedVessels vessels).2 =
      (if (dockedFilter vessels).filter (fun v => terminalKey v == t) = [] then none
       else some ((dockedFilter vessels).filter (fun v => terminalKey v == t))) := by
    intro t
    show dictGet t ((dockedFilter vessels).foldl groupStep []) = _
    rw [dictGet_group_fold]
    simp [dictGet, groupedBucket]
  refine ⟨fun v => ?_, hgroup, fun v hv ht => ?_⟩
  · show v ∈ dockedFilter vessels ↔ _
    simp [dockedFilter, List.mem_filter]
  · have hkey : terminalKey v = "Unknown" := by simp [terminalKey, ht]
    have hmem : v ∈ (dockedFilter vessels).filter (fun w => terminalKey w == "Unknown") := by
      rw [List.mem_filter]
      exact ⟨hv, by simp [hkey]⟩
    have hne : (dockedFilter vessels).filter (fun w => terminalKey w == "Unknown") ≠ [] :=
      List.ne_nil_of_mem hmem
    refine ⟨_, ?_, hmem⟩
    rw [hgroup "Unknown", if_neg hne]

/-- Witness for C9 on a set with statuses docked, unloading, in-transit: only
the first two are returned, the terminal-less unloading vessel lands in the
"Unknown" bucket and the docked vessel in its terminal's bucket. -/
theorem getDockedVessels_spec_witness :
    demoUnloading ∈ (getDockedVessels demoVessels).1 ∧
    demoTransit ∉ (getDockedVessels demoVessels).1 ∧
    (∃ g, dictGet "Unknown" (getDockedVessels demoVessels).2 = some g ∧
      demoUnloading ∈ g) ∧
    dictGet "Bayport" (getDockedVessels demoVessels).2 = some [demoDocked] := by
  have h := getDockedVessels_spec demoVessels
  refine ⟨?_, ?_, ?_, ?_⟩
  · exact (h.1 demoUnloading).mpr ⟨by decide, Or.inr rfl⟩
  · intro hmem
    exact absurd ((h.1 demoTransit).mp hmem).2 (by decide)
  · exact h.2.2 demoUnloading (by decide) rfl
  · rw [h.2.1 "Bayport"]
    decide

/-- C10: `get_tracker_history` with limit 0 returns the whole stored history
newest-first (the `[-0:]` slice is the full list), and with a positive limit
the most recent `limit` entries newest-first. -/
theorem getTrackerHistory_limit {β : Type} (history : List β) :
    getTrackerHistory history 0 = history.reverse ∧
    (∀ limit, 0 < limit →
      getTrackerHistory history limit = history.reverse.take limit) := by
  constructor
  · simp [getTrackerHistory, pySliceNegLimit]
  · intro limit hl
    have h0 : ¬ limit = 0 := by omega
    show (if limit = 0 then history else history.drop (history.length - limit)).reverse = _
    rw [if_neg h0]
    have h1 : history.drop (history.length - limit) = history.rtake limit := rfl
    rw [h1, List.rtake_eq_reverse_take_reverse, List.reverse_reverse]

/-- Witness for C10 on the history [1, 2, 3]: limit 0 yields all three entries
newest-first, limit 2 the most recent two. -/
theorem getTrackerHistory_limit_witness :
    getTrackerHistory [1, 2, 3] 0 = [3, 2, 1] ∧
    getTrackerHistory [1, 2, 3] 2 = [3, 2] := by
  have h := getTrackerHistory_limit [1, 2, 3]
  exact ⟨h.1, h.2 2 (by norm_num)⟩

end PortRail
